import Mathlib

/-!
Verification of the fixed-timestep stepper and rain-particle pool of the
CS174A final project (src/final_project.js).

Shallow embedding conventions:
* JS numbers are modelled as exact rationals.
* The Euclidean norm comparisons of the source, norm() > c and norm() < c,
  are modelled on squared norms, normSq > c^2 and normSq < c^2, which is
  equivalent for nonnegative c and keeps every definition inside ℚ.
* The source file contains two concatenated copies of the classes
  Simulation and TotoroScene.  The two Simulation.simulate bodies
  (lines 18-45 and 445-472) are textually identical; for TotoroScene the
  effective update_state is the later one (lines 750-784), which is the
  copy the claims cite; the earlier copy (lines 188-214) is shadowed.
* Body comes from examples/collisions-demo.js, which is not under src/;
  its advance and blend_state are modelled from the spec (section 4.1):
  advance pushes current_state to previous_state and integrates
  linear_velocity over dt; blend_state sets drawn_location to the linear
  interpolation of the two snapshots.  Rotation state is not modelled:
  no claim mentions orientations, only centers and velocities.
-/

/-- A 3-vector of rationals, the position/velocity type of a body. -/
structure Vec3 where
  x : ℚ
  y : ℚ
  z : ℚ
deriving DecidableEq

/-- Squared Euclidean norm.  Models the comparisons of vector .norm()
against a nonnegative constant in the source, via squaring both sides. -/
def Vec3.normSq (v : Vec3) : ℚ := v.x * v.x + v.y * v.y + v.z * v.z

/-- Componentwise linear interpolation, a*(1-t) + b*t.  Models the
mix used by blend_state in examples/collisions-demo.js. -/
def Vec3.mix (a b : Vec3) (t : ℚ) : Vec3 :=
  ⟨a.x * (1 - t) + b.x * t, a.y * (1 - t) + b.y * t, a.z * (1 - t) + b.z * t⟩

/-- Modelled from the spec: a Body of examples/collisions-demo.js (not under
src/), restricted to its kinematic position state: two trailing snapshots
(previous and center), the blended drawn location, the linear velocity, the
scalar angular velocity, and a flag recording which rain material the body
was spawned with (rainBright vs rain). -/
structure Body where
  center : Vec3
  previous : Vec3
  drawn : Vec3
  linear_velocity : Vec3
  angular_velocity : ℚ
  bright : Bool
deriving DecidableEq

/-- Modelled from the spec: Body.advance(dt) pushes current_state to
previous_state and integrates linear_velocity over dt. -/
def Body.advance (dt : ℚ) (b : Body) : Body :=
  { b with
    previous := b.center
    center := ⟨b.center.x + b.linear_velocity.x * dt,
               b.center.y + b.linear_velocity.y * dt,
               b.center.z + b.linear_velocity.z * dt⟩ }

/-- Modelled from the spec: Body.blend_state(alpha) stores the interpolation
of the two latest snapshots into drawn_location. -/
def Body.blend_state (alpha : ℚ) (b : Body) : Body :=
  { b with drawn := Vec3.mix b.previous b.center alpha }

/-- The Simulation state (final_project.js lines 12-16): clock bookkeeping
fields from the constructor, the live body list, and the σ-typed fields the
subclass owns (scene timeline state for TotoroScene, Unit for the base). -/
structure Sim (σ : Type) where
  time_accumulator : ℚ
  time_scale : ℚ
  t : ℚ
  dt : ℚ
  steps_taken : ℕ
  bodies : List Body
  scene : σ
deriving DecidableEq

/-- A fresh Simulation (constructor, line 14):
time_accumulator 0, time_scale 1, t 0, dt 1/20, no bodies, 0 steps. -/
def freshSim {σ : Type} (sc : σ) : Sim σ :=
  { time_accumulator := 0, time_scale := 1, t := 0, dt := 1/20
    steps_taken := 0, bodies := [], scene := sc }

/-- Math.sign: 1 for positive, -1 for negative, 0 for zero. -/
def jsSign (q : ℚ) : ℚ := if 0 < q then 1 else if q < 0 then -1 else 0

/-- Fuel bounding the while loop of simulate.  The JS loop runs until the
accumulator magnitude drops below dt; whenever it terminates at all it takes
at most ceil(|acc| / dt) iterations, so this fuel is never the binding
constraint on the executions the theorems below describe. -/
def loopFuel (acc dtv : ℚ) : ℕ := (⌈|acc| / dtv⌉).toNat + 1

/-- The sub-step while loop of simulate (lines 29-39).  Each iteration:
call update_state(dt) (the subclass callback; returning none models the
base-class throw), advance every body, move the clock by sign(frame)*dt,
repay the accumulator, count the step.  The Bool result records whether
the callback threw; on a throw the loop aborts with the state mutated so
far, exactly as a JS exception would leave the object. -/
def simLoop {σ : Type} (upd : ℚ → List Body → σ → Option (List Body × σ))
    (dtv sgn : ℚ) :
    ℕ → ℚ → ℚ → ℕ → List Body → σ → ℚ × ℚ × ℕ × List Body × σ × Bool
  | 0, acc, t, steps, bs, sc => (acc, t, steps, bs, sc, false)
  | fuel+1, acc, t, steps, bs, sc =>
    if dtv ≤ |acc| then
      match upd dtv bs sc with
      | none => (acc, t, steps, bs, sc, true)
      | some (bs2, sc2) =>
        simLoop upd dtv sgn fuel (acc - sgn * dtv) (t + sgn * dtv) (steps + 1)
          (bs2.map (Body.advance dtv)) sc2
    else (acc, t, steps, bs, sc, false)

/-- Simulation.simulate(frame_time) (lines 18-45): scale the frame time,
add at most 0.1 of it to the accumulator (spiral-of-death guard), run the
sub-step loop, then store the interpolation factor alpha into every body
via blend_state.  On a callback throw the blend is skipped and the flag
is true, matching the JS exception propagating out of simulate. -/
def simulate {σ : Type} (upd : ℚ → List Body → σ → Option (List Body × σ))
    (s : Sim σ) (frame_time : ℚ) : Sim σ × Bool :=
  let f := s.time_scale * frame_time
  let acc0 := s.time_accumulator + min f (1/10)
  let r := simLoop upd s.dt (jsSign f) (loopFuel acc0 s.dt)
      acc0 s.t s.steps_taken s.bodies s.scene
  if r.2.2.2.2.2 then
    ({ s with time_accumulator := r.1, t := r.2.1, steps_taken := r.2.2.1,
              bodies := r.2.2.2.1, scene := r.2.2.2.2.1 }, true)
  else
    ({ s with time_accumulator := r.1, t := r.2.1, steps_taken := r.2.2.1,
              bodies := r.2.2.2.1.map (Body.blend_state (r.1 / s.dt)),
              scene := r.2.2.2.2.1 }, false)

/-- Wraps a total state-update callback (one that never throws). -/
def someUpd {σ : Type} (u : ℚ → List Body → σ → List Body × σ) :
    ℚ → List Body → σ → Option (List Body × σ) :=
  fun d bs sc => some (u d bs sc)

/-- A state-update callback that changes nothing. -/
def idUpd : ℚ → List Body → Unit → List Body × Unit := fun _ bs sc => (bs, sc)

/-- A state-update callback that counts its own invocations in the scene. -/
def countUpd : ℚ → List Body → ℕ → List Body × ℕ := fun _ bs n => (bs, n + 1)

/-- The abstract base-class update_state (lines 58-61): it throws
unconditionally (throw "Override this"), modelled as none. -/
def baseUpdate : ℚ → List Body → Unit → Option (List Body × Unit) :=
  fun _ _ _ => none

/-- A sequence of simulate calls from a fresh Simulation. -/
def simSeq {σ : Type} (u : ℚ → List Body → σ → List Body × σ) (sc : σ)
    (fs : List ℚ) : Sim σ :=
  fs.foldl (fun st f => (simulate (someUpd u) st f).1) (freshSim sc)

/-- The effect of one sub-step body on the live list and scene, iterated n
times: call the (total) callback, then advance every body.  This is the
body/scene trajectory the loop of simulate produces over n iterations. -/
def stepIter {σ : Type} (u : ℚ → List Body → σ → List Body × σ) (dtv : ℚ) :
    ℕ → List Body → σ → List Body × σ
  | 0, bs, sc => (bs, sc)
  | n+1, bs, sc =>
    stepIter u dtv n ((u dtv bs sc).1.map (Body.advance dtv)) (u dtv bs sc).2

/-- The steady-state invariant of the stepper under forward play:
nonnegative accumulator strictly below the step size, positive step size,
and unit time scale. -/
def INV {σ : Type} (s : Sim σ) : Prop :=
  0 ≤ s.time_accumulator ∧ s.time_accumulator < s.dt ∧ 0 < s.dt ∧
    s.time_scale = 1

lemma abs_eq_sgn {sgn a : ℚ} (hs : sgn = 1 ∨ sgn = -1) (h : 0 ≤ sgn * a) :
    |a| = sgn * a := by
  rcases hs with rfl | rfl
  · rw [one_mul] at h ⊢; exact abs_of_nonneg h
  · have ha : a ≤ 0 := by linarith
    rw [abs_of_nonpos ha]; ring

lemma sgn_mul_le_abs {sgn a : ℚ} (hs : sgn = 1 ∨ sgn = -1) :
    sgn * a ≤ |a| := by
  rcases hs with rfl | rfl
  · rw [one_mul]; exact le_abs_self a
  · calc -1 * a = -a := by ring
    _ ≤ |a| := neg_le_abs a

lemma le_loopFuel {acc dtv : ℚ} (hdt : 0 < dtv) {n : ℕ}
    (h : (n : ℚ) * dtv ≤ |acc|) : n ≤ loopFuel acc dtv := by
  have h1 : (n : ℚ) ≤ |acc| / dtv := (le_div_iff₀ hdt).2 h
  have h2 : ((n : ℤ) : ℚ) ≤ (⌈|acc| / dtv⌉ : ℚ) :=
    le_trans (by exact_mod_cast h1) (Int.le_ceil _)
  have h3 : (n : ℤ) ≤ ⌈|acc| / dtv⌉ := by exact_mod_cast h2
  unfold loopFuel
  omega

/-- If the accumulator magnitude is already below dt, the loop does
nothing, for any callback and any fuel. -/
lemma simLoop_guardFalse {σ : Type}
    (upd : ℚ → List Body → σ → Option (List Body × σ)) {dtv : ℚ}
    (sgn : ℚ) (fuel : ℕ) {acc : ℚ} (t : ℚ) (steps : ℕ) (bs : List Body)
    (sc : σ) (h : ¬ dtv ≤ |acc|) :
    simLoop upd dtv sgn fuel acc t steps bs sc =
      (acc, t, steps, bs, sc, false) := by
  cases fuel with
  | zero => simp [simLoop]
  | succ m => simp [simLoop, h]

/-- If the guard holds and the callback throws, the loop aborts at once
with the thrown flag and no state advanced. -/
lemma simLoop_throwFirst {σ : Type}
    (upd : ℚ → List Body → σ → Option (List Body × σ)) {dtv : ℚ}
    (sgn : ℚ) (fuel : ℕ) {acc : ℚ} (t : ℚ) (steps : ℕ) {bs : List Body}
    {sc : σ} (h : dtv ≤ |acc|) (hupd : upd dtv bs sc = none) :
    simLoop upd dtv sgn (fuel + 1) acc t steps bs sc =
      (acc, t, steps, bs, sc, true) := by
  simp [simLoop, h, hupd]

/-- Exact characterization of the sub-step loop for a total callback:
with sign ±1 and the accumulator holding between n and n+1 signed steps,
the loop runs exactly n iterations, repaying n*sgn*dt of accumulator,
moving the clock by n*sgn*dt, and producing the n-fold step iterate of
bodies and scene. -/
lemma simLoop_run {σ : Type} (u : ℚ → List Body → σ → List Body × σ)
    {dtv sgn : ℚ} (hdt : 0 < dtv) (hs : sgn = 1 ∨ sgn = -1) :
    ∀ (n fuel : ℕ) (acc t : ℚ) (steps : ℕ) (bs : List Body) (sc : σ),
      n ≤ fuel → (n : ℚ) * dtv ≤ sgn * acc →
      sgn * acc < ((n : ℚ) + 1) * dtv →
      simLoop (someUpd u) dtv sgn fuel acc t steps bs sc =
        (acc - (n : ℚ) * (sgn * dtv), t + (n : ℚ) * (sgn * dtv), steps + n,
         (stepIter u dtv n bs sc).1, (stepIter u dtv n bs sc).2, false) := by
  intro n
  induction n with
  | zero =>
    intro fuel acc t steps bs sc _ hlo hhi
    have habs : |acc| = sgn * acc := abs_eq_sgn hs (by simpa using hlo)
    have hguard : ¬ dtv ≤ |acc| := by
      rw [habs]; push_cast at hhi; linarith
    rw [simLoop_guardFalse _ _ _ _ _ _ _ hguard]
    simp [stepIter]
  | succ k ih =>
    intro fuel acc t steps bs sc hf hlo hhi
    cases fuel with
    | zero => omega
    | succ m =>
      have hsq : sgn * sgn = 1 := by rcases hs with rfl | rfl <;> norm_num
      have h0 : (0 : ℚ) ≤ sgn * acc := le_trans (by positivity) hlo
      have habs : |acc| = sgn * acc := abs_eq_sgn hs h0
      have hguard : dtv ≤ |acc| := by
        rw [habs]
        have h1 : ((k : ℚ) + 1) * dtv ≤ sgn * acc := by push_cast at hlo; linarith
        nlinarith
      have hexp : sgn * (acc - sgn * dtv) = sgn * acc - dtv := by
        linear_combination (-dtv) * hsq
      have hlo2 : (k : ℚ) * dtv ≤ sgn * (acc - sgn * dtv) := by
        rw [hexp]; push_cast at hlo; linarith
      have hhi2 : sgn * (acc - sgn * dtv) < ((k : ℚ) + 1) * dtv := by
        rw [hexp]; push_cast at hhi; linarith
      have hstep :
          simLoop (someUpd u) dtv sgn (m + 1) acc t steps bs sc =
            simLoop (someUpd u) dtv sgn m (acc - sgn * dtv) (t + sgn * dtv)
              (steps + 1) ((u dtv bs sc).1.map (Body.advance dtv))
              (u dtv bs sc).2 := by
        simp [simLoop, hguard, someUpd]
      rw [hstep, ih m _ _ _ _ _ (by omega) hlo2 hhi2]
      push_cast
      refine congrArg₂ _ (by ring) (congrArg₂ _ (by ring) ?_)
      refine congrArg₂ _ (by omega) ?_
      simp [stepIter]

/-- One simulate call, fully characterized, when the scaled frame time has
sign ±1 and the accumulator after the clamped addition holds between n and
n+1 signed steps: exactly n sub-steps run and the loop result is blended
with alpha = residual/dt. -/
lemma simulate_run {σ : Type} (u : ℚ → List Body → σ → List Body × σ)
    (s : Sim σ) (f : ℚ) (n : ℕ) (hdt : 0 < s.dt)
    (hs : jsSign (s.time_scale * f) = 1 ∨ jsSign (s.time_scale * f) = -1)
    (hlo : (n : ℚ) * s.dt ≤ jsSign (s.time_scale * f) *
      (s.time_accumulator + min (s.time_scale * f) (1/10)))
    (hhi : jsSign (s.time_scale * f) *
      (s.time_accumulator + min (s.time_scale * f) (1/10)) <
      ((n : ℚ) + 1) * s.dt) :
    simulate (someUpd u) s f =
      ({ s with
          time_accumulator := s.time_accumulator + min (s.time_scale * f) (1/10)
            - (n : ℚ) * (jsSign (s.time_scale * f) * s.dt)
          t := s.t + (n : ℚ) * (jsSign (s.time_scale * f) * s.dt)
          steps_taken := s.steps_taken + n
          bodies := (stepIter u s.dt n s.bodies s.scene).1.map
            (Body.blend_state ((s.time_accumulator + min (s.time_scale * f) (1/10)
              - (n : ℚ) * (jsSign (s.time_scale * f) * s.dt)) / s.dt))
          scene := (stepIter u s.dt n s.bodies s.scene).2 }, false) := by
  have hfuel : n ≤ loopFuel
      (s.time_accumulator + min (s.time_scale * f) (1/10)) s.dt :=
    le_loopFuel hdt (le_trans hlo (sgn_mul_le_abs hs))
  simp only [simulate]
  rw [simLoop_run u hdt hs n _ _ _ _ _ _ hfuel hlo hhi]
  simp

/-- One simulate call when the accumulator after the clamped addition is
still below dt in magnitude: no sub-step runs, for any callback. -/
lemma simulate_small {σ : Type}
    (upd : ℚ → List Body → σ → Option (List Body × σ)) (s : Sim σ) (f : ℚ)
    (hsmall : |s.time_accumulator + min (s.time_scale * f) (1/10)| < s.dt) :
    simulate upd s f =
      ({ s with
          time_accumulator := s.time_accumulator + min (s.time_scale * f) (1/10)
          bodies := s.bodies.map
            (Body.blend_state ((s.time_accumulator +
              min (s.time_scale * f) (1/10)) / s.dt)) }, false) := by
  simp only [simulate]
  rw [simLoop_guardFalse _ _ _ _ _ _ _ (not_le.2 hsmall)]
  simp

/-- One simulate call when the base-class callback is in force and the
clamped addition pushes the accumulator to dt or beyond: the first
sub-step throws, leaving everything but the accumulator untouched. -/
lemma simulate_throw {σ : Type}
    (upd : ℚ → List Body → σ → Option (List Body × σ)) (s : Sim σ) (f : ℚ)
    (hbig : s.dt ≤ |s.time_accumulator + min (s.time_scale * f) (1/10)|)
    (hupd : upd s.dt s.bodies s.scene = none) :
    simulate upd s f =
      ({ s with
          time_accumulator :=
            s.time_accumulator + min (s.time_scale * f) (1/10) }, true) := by
  simp only [simulate, loopFuel]
  rw [simLoop_throwFirst _ _ _ _ _ hbig hupd]
  simp

/-- One forward simulate call with a total callback, from an invariant
state: no throw, the invariant is preserved, dt is unchanged, the ledger
"steps so far times dt plus accumulator" grows by exactly the clamped
frame time, and the final bodies are all blended with the final alpha. -/
lemma simulate_spec_nonneg {σ : Type} (u : ℚ → List Body → σ → List Body × σ)
    (s : Sim σ) (f : ℚ) (hinv : INV s) (hf : 0 ≤ f) :
    (simulate (someUpd u) s f).2 = false ∧
    INV (simulate (someUpd u) s f).1 ∧
    (simulate (someUpd u) s f).1.dt = s.dt ∧
    ((simulate (someUpd u) s f).1.steps_taken : ℚ) * s.dt +
      (simulate (someUpd u) s f).1.time_accumulator =
      (s.steps_taken : ℚ) * s.dt + s.time_accumulator + min f (1/10) ∧
    ∃ bs0 : List Body, (simulate (someUpd u) s f).1.bodies =
      bs0.map (Body.blend_state
        ((simulate (someUpd u) s f).1.time_accumulator / s.dt)) := by
  obtain ⟨ha0, haccdt, hdt, hts⟩ := hinv
  have hs1 : s.time_scale * f = f := by rw [hts, one_mul]
  rcases eq_or_lt_of_le hf with heq | hpos
  · -- frame time zero: the clamp adds zero and no sub-step runs
    have hmin : min (s.time_scale * f) (1/10) = 0 := by
      rw [hs1, ← heq]; exact min_eq_left (by norm_num)
    have hsmall : |s.time_accumulator + min (s.time_scale * f) (1/10)| < s.dt := by
      rw [hmin, add_zero, abs_of_nonneg ha0]; exact haccdt
    rw [simulate_small (someUpd u) s f hsmall]
    refine ⟨rfl, ⟨?_, ?_, hdt, hts⟩, rfl, ?_, ⟨s.bodies, ?_⟩⟩
    · rw [hmin, add_zero]; exact ha0
    · rw [hmin, add_zero]; exact haccdt
    · rw [hmin, add_zero, ← heq]
      rw [show min (0:ℚ) (1/10) = 0 from min_eq_left (by norm_num), add_zero]
    · rw [hmin, add_zero]
  · -- positive frame time: run the floor(acc0/dt) sub-steps
    have hfpos : 0 < s.time_scale * f := by rw [hs1]; exact hpos
    have hsgn : jsSign (s.time_scale * f) = 1 := by simp [jsSign, hfpos]
    have hminnn : 0 ≤ min f (1/10) := le_min hf (by norm_num)
    have hacc0 : 0 ≤ s.time_accumulator + min (s.time_scale * f) (1/10) := by
      rw [hs1]; linarith
    have hx0 : 0 ≤ (s.time_accumulator + min (s.time_scale * f) (1/10)) / s.dt :=
      div_nonneg hacc0 hdt.le
    have hfl := Int.floor_le
      ((s.time_accumulator + min (s.time_scale * f) (1/10)) / s.dt)
    have hlt := Int.lt_floor_add_one
      ((s.time_accumulator + min (s.time_scale * f) (1/10)) / s.dt)
    have hnn : 0 ≤ ⌊(s.time_accumulator + min (s.time_scale * f) (1/10)) / s.dt⌋ :=
      Int.floor_nonneg.2 hx0
    have hcast :
        ((⌊(s.time_accumulator + min (s.time_scale * f) (1/10)) / s.dt⌋.toNat : ℚ)) =
        ((⌊(s.time_accumulator + min (s.time_scale * f) (1/10)) / s.dt⌋ : ℚ)) := by
      exact_mod_cast congrArg (fun z => ((z : ℤ) : ℚ)) (Int.toNat_of_nonneg hnn)
    have hmul : (s.time_accumulator + min (s.time_scale * f) (1/10)) / s.dt * s.dt
        = s.time_accumulator + min (s.time_scale * f) (1/10) :=
      div_mul_cancel₀ _ hdt.ne'
    have hlo : ((⌊(s.time_accumulator + min (s.time_scale * f) (1/10)) / s.dt⌋.toNat : ℚ))
        * s.dt ≤ jsSign (s.time_scale * f) *
        (s.time_accumulator + min (s.time_scale * f) (1/10)) := by
      rw [hsgn, one_mul, hcast]
      calc (⌊(s.time_accumulator + min (s.time_scale * f) (1/10)) / s.dt⌋ : ℚ) * s.dt
          ≤ (s.time_accumulator + min (s.time_scale * f) (1/10)) / s.dt * s.dt :=
            mul_le_mul_of_nonneg_right hfl hdt.le
        _ = _ := hmul
    have hhi : jsSign (s.time_scale * f) *
        (s.time_accumulator + min (s.time_scale * f) (1/10)) <
        (((⌊(s.time_accumulator + min (s.time_scale * f) (1/10)) / s.dt⌋.toNat : ℚ)) + 1)
        * s.dt := by
      rw [hsgn, one_mul, hcast]
      calc s.time_accumulator + min (s.time_scale * f) (1/10)
          = (s.time_accumulator + min (s.time_scale * f) (1/10)) / s.dt * s.dt := hmul.symm
        _ < ((⌊(s.time_accumulator + min (s.time_scale * f) (1/10)) / s.dt⌋ : ℚ) + 1) * s.dt :=
            mul_lt_mul_of_pos_right hlt hdt
    rw [simulate_run u s f _ hdt (Or.inl hsgn) hlo hhi]
    rw [hsgn] at hlo hhi
    rw [one_mul] at hlo hhi
    refine ⟨rfl, ⟨?_, ?_, hdt, hts⟩, rfl, ?_, ?_⟩
    · rw [hsgn, one_mul]; linarith
    · rw [hsgn, one_mul]; linarith
    · rw [hsgn, hs1, one_mul]
      push_cast
      ring
    · exact ⟨(stepIter u s.dt
        (⌊(s.time_accumulator + min (s.time_scale * f) (1/10)) / s.dt⌋.toNat)
        s.bodies s.scene).1, rfl⟩

/-- Folding forward simulate calls preserves the invariant and the ledger
inequality: total stepped time plus residual never exceeds the initial
ledger plus the sum of the frame times. -/
lemma simSeq_spec {σ : Type} (u : ℚ → List Body → σ → List Body × σ) :
    ∀ (fs : List ℚ) (s : Sim σ), INV s → (∀ g ∈ fs, 0 ≤ g) →
      INV (fs.foldl (fun st f => (simulate (someUpd u) st f).1) s) ∧
      (fs.foldl (fun st f => (simulate (someUpd u) st f).1) s).dt = s.dt ∧
      ((fs.foldl (fun st f => (simulate (someUpd u) st f).1) s).steps_taken : ℚ)
          * s.dt +
        (fs.foldl (fun st f => (simulate (someUpd u) st f).1) s).time_accumulator ≤
        (s.steps_taken : ℚ) * s.dt + s.time_accumulator + fs.sum := by
  intro fs
  induction fs with
  | nil =>
    intro s hinv _
    exact ⟨hinv, rfl, by simp⟩
  | cons g gs ih =>
    intro s hinv hall
    have hg : 0 ≤ g := hall g (by simp)
    have hgs : ∀ x ∈ gs, 0 ≤ x := fun x hx => hall x (by simp [hx])
    obtain ⟨-, hinv1, hdt1, hledger, -⟩ := simulate_spec_nonneg u s g hinv hg
    obtain ⟨hinv2, hdt2, hle2⟩ := ih ((simulate (someUpd u) s g).1) hinv1 hgs
    refine ⟨by simpa using hinv2, by simp [hdt2, hdt1], ?_⟩
    have hminle : min g (1/10) ≤ g := min_le_left _ _
    rw [List.foldl_cons, List.sum_cons]
    rw [hdt1] at hle2
    linarith

/-- C1: for every sequence of simulate(frame_time) calls from a fresh
Simulation, with every frame_time nonnegative and time fixed at scale 1,
the total simulated time steps_taken * dt never exceeds the sum of the
frame times: the per-call clamp (at most 0.1 added per call) cannot
manufacture extra simulated time. -/
theorem sim_steps_le_frame_sum {σ : Type}
    (u : ℚ → List Body → σ → List Body × σ) (sc : σ) (fs : List ℚ)
    (hfs : ∀ g ∈ fs, 0 ≤ g) :
    ((simSeq u sc fs).steps_taken : ℚ) * (1/20) ≤ fs.sum := by
  have hfresh : INV (freshSim sc) := by
    refine ⟨le_refl 0, by norm_num [freshSim], by norm_num [freshSim], rfl⟩
  obtain ⟨hinvf, hdtf, hlef⟩ := simSeq_spec u fs (freshSim sc) hfresh hfs
  have hacc : 0 ≤ (simSeq u sc fs).time_accumulator := hinvf.1
  dsimp only [simSeq] at hacc ⊢
  simp only [freshSim] at hlef hacc ⊢
  push_cast at hlef
  linarith

/-- Witness for C1 at a concrete two-call sequence. -/
theorem sim_steps_le_frame_sum_witness :
    (∀ g ∈ [(17:ℚ)/100, 1/100], 0 ≤ g) ∧
    ((simSeq idUpd () [(17:ℚ)/100, 1/100]).steps_taken : ℚ) * (1/20) ≤
      [(17:ℚ)/100, 1/100].sum :=
  ⟨by intro g hg; fin_cases hg <;> norm_num,
   sim_steps_le_frame_sum idUpd () [(17:ℚ)/100, 1/100]
     (by intro g hg; fin_cases hg <;> norm_num)⟩

/-- Full evaluation of one simulate(0.17) call on a fresh Simulation with
the invocation-counting callback: the 0.1 clamp caps the added time, so
exactly two sub-steps run and the accumulator is fully repaid. -/
lemma sim17_run :
    simulate (someUpd countUpd) (freshSim (0 : ℕ)) (17/100) =
      ({ time_accumulator := 0, time_scale := 1, t := 1/10, dt := 1/20,
         steps_taken := 2, bodies := [], scene := 2 }, false) := by
  have hsgn : jsSign ((freshSim (0 : ℕ)).time_scale * (17/100)) = 1 := by
    norm_num [jsSign, freshSim]
  have hmin : min ((freshSim (0 : ℕ)).time_scale * (17/100)) (1/10) = 1/10 := by
    norm_num [freshSim, min_def]
  have hlo : ((2 : ℕ) : ℚ) * (freshSim (0 : ℕ)).dt ≤
      jsSign ((freshSim (0 : ℕ)).time_scale * (17/100)) *
        ((freshSim (0 : ℕ)).time_accumulator +
          min ((freshSim (0 : ℕ)).time_scale * (17/100)) (1/10)) := by
    rw [hsgn, hmin]; norm_num [freshSim]
  have hhi : jsSign ((freshSim (0 : ℕ)).time_scale * (17/100)) *
      ((freshSim (0 : ℕ)).time_accumulator +
        min ((freshSim (0 : ℕ)).time_scale * (17/100)) (1/10)) <
      (((2 : ℕ) : ℚ) + 1) * (freshSim (0 : ℕ)).dt := by
    rw [hsgn, hmin]; norm_num [freshSim]
  have h := simulate_run countUpd (freshSim (0 : ℕ)) (17/100) 2
    (by norm_num [freshSim]) (Or.inl hsgn) hlo hhi
  rw [h, hsgn, hmin]
  norm_num [freshSim, stepIter, countUpd]

/-- C2 counterexample: on a fresh Simulation (dt = 0.05, time_scale = 1,
accumulator 0), simulate(0.17) does NOT take 3 sub-steps, does NOT leave
the accumulator at 0.02, and does NOT advance t by 0.15: the 0.1 clamp
caps the frame time before it reaches the accumulator. -/
theorem sim17_cex :
    (simulate (someUpd countUpd) (freshSim (0 : ℕ)) (17/100)).1.steps_taken ≠ 3 ∧
    (simulate (someUpd countUpd) (freshSim (0 : ℕ)) (17/100)).1.time_accumulator ≠ 1/50 ∧
    (simulate (someUpd countUpd) (freshSim (0 : ℕ)) (17/100)).1.t ≠ 3/20 := by
  rw [sim17_run]
  norm_num

/-- C2 amended: on a fresh Simulation, simulate(0.17) first clamps the
added time to 0.1, so exactly 2 sub-steps execute (the state-update
callback runs exactly twice, as the counting scene records), the
accumulator ends at 0, and t increases by exactly 0.1. -/
theorem sim17_amended :
    (simulate (someUpd countUpd) (freshSim (0 : ℕ)) (17/100)).1.steps_taken = 2 ∧
    (simulate (someUpd countUpd) (freshSim (0 : ℕ)) (17/100)).1.scene = 2 ∧
    (simulate (someUpd countUpd) (freshSim (0 : ℕ)) (17/100)).1.time_accumulator = 0 ∧
    (simulate (someUpd countUpd) (freshSim (0 : ℕ)) (17/100)).1.t = 1/10 := by
  rw [sim17_run]
  norm_num

/-- C3: after every call of a forward-time run from a fresh Simulation
(frame times nonnegative, time_scale 1, dt = 1/20 > 0), the interpolation
factor alpha = time_accumulator / dt computed after the sub-step loop lies
in [0, 1), and the drawn location of every live body is the convex
interpolation of previous_state and current_state at that alpha, never an
extrapolation. -/
theorem alpha_in_unit_interval_and_convex {σ : Type}
    (u : ℚ → List Body → σ → List Body × σ) (sc : σ) (fs : List ℚ) (f : ℚ)
    (hfs : ∀ g ∈ fs, 0 ≤ g) (hf : 0 ≤ f) :
    ∃ α : ℚ, 0 ≤ α ∧ α < 1 ∧
      ∀ b ∈ (simulate (someUpd u) (simSeq u sc fs) f).1.bodies,
        b.drawn = Vec3.mix b.previous b.center α := by
  have hfresh : INV (freshSim sc) := by
    refine ⟨le_refl 0, by norm_num [freshSim], by norm_num [freshSim], rfl⟩
  have hinv1 : INV (simSeq u sc fs) := by
    have h := (simSeq_spec u fs (freshSim sc) hfresh hfs).1
    dsimp only [simSeq]
    exact h
  obtain ⟨hflag, hinv2, hdt2, hled, bs0, hbodies⟩ :=
    simulate_spec_nonneg u (simSeq u sc fs) f hinv1 hf
  have hdtpos : 0 < (simSeq u sc fs).dt := hinv1.2.2.1
  refine ⟨(simulate (someUpd u) (simSeq u sc fs) f).1.time_accumulator /
    (simSeq u sc fs).dt, ?_, ?_, ?_⟩
  · exact div_nonneg hinv2.1 hdtpos.le
  · rw [div_lt_one hdtpos, ← hdt2]
    exact hinv2.2.1
  · intro b hb
    rw [hbodies] at hb
    obtain ⟨a, ha, rfl⟩ := List.mem_map.1 hb
    simp [Body.blend_state]

/-- A concrete probe body at the origin with horizontal velocity. -/
def probeBody : Body :=
  { center := ⟨0, 0, 0⟩, previous := ⟨0, 0, 0⟩, drawn := ⟨0, 0, 0⟩,
    linear_velocity := ⟨1, 0, 0⟩, angular_velocity := 0, bright := false }

/-- A state-update callback that appends the probe body each step. -/
def pushUpd : ℚ → List Body → Unit → List Body × Unit :=
  fun _ bs sc => (bs ++ [probeBody], sc)

/-- Witness for C3 at a concrete call that runs one sub-step and leaves a
nonzero alpha. -/
theorem alpha_in_unit_interval_and_convex_witness :
    (∀ g ∈ ([] : List ℚ), 0 ≤ g) ∧ (0 : ℚ) ≤ 7/100 ∧
    (∃ α : ℚ, 0 ≤ α ∧ α < 1 ∧
      ∀ b ∈ (simulate (someUpd pushUpd) (simSeq pushUpd () []) (7/100)).1.bodies,
        b.drawn = Vec3.mix b.previous b.center α) :=
  ⟨by simp, by norm_num,
   alpha_in_unit_interval_and_convex pushUpd () [] (7/100) (by simp) (by norm_num)⟩

/-- The sub-step loop conserves accumulator plus clock: each iteration
moves exactly sgn*dt from one to the other. -/
lemma simLoop_conserves {σ : Type} (u : ℚ → List Body → σ → List Body × σ)
    (dtv sgn : ℚ) :
    ∀ (fuel : ℕ) (acc t : ℚ) (steps : ℕ) (bs : List Body) (sc : σ),
      (simLoop (someUpd u) dtv sgn fuel acc t steps bs sc).1 +
        (simLoop (someUpd u) dtv sgn fuel acc t steps bs sc).2.1 = acc + t := by
  intro fuel
  induction fuel with
  | zero => intro acc t steps bs sc; simp [simLoop]
  | succ m ih =>
    intro acc t steps bs sc
    by_cases h : dtv ≤ |acc|
    · have : simLoop (someUpd u) dtv sgn (m + 1) acc t steps bs sc =
          simLoop (someUpd u) dtv sgn m (acc - sgn * dtv) (t + sgn * dtv)
            (steps + 1) ((u dtv bs sc).1.map (Body.advance dtv))
            (u dtv bs sc).2 := by
        simp [simLoop, h, someUpd]
      rw [this, ih]
      ring
    · rw [simLoop_guardFalse _ _ _ _ _ _ _ h]

/-- A total callback never sets the thrown flag. -/
lemma simLoop_total_no_throw {σ : Type} (u : ℚ → List Body → σ → List Body × σ)
    (dtv sgn : ℚ) :
    ∀ (fuel : ℕ) (acc t : ℚ) (steps : ℕ) (bs : List Body) (sc : σ),
      (simLoop (someUpd u) dtv sgn fuel acc t steps bs sc).2.2.2.2.2 = false := by
  intro fuel
  induction fuel with
  | zero => intro acc t steps bs sc; simp [simLoop]
  | succ m ih =>
    intro acc t steps bs sc
    by_cases h : dtv ≤ |acc|
    · have : simLoop (someUpd u) dtv sgn (m + 1) acc t steps bs sc =
          simLoop (someUpd u) dtv sgn m (acc - sgn * dtv) (t + sgn * dtv)
            (steps + 1) ((u dtv bs sc).1.map (Body.advance dtv))
            (u dtv bs sc).2 := by
        simp [simLoop, h, someUpd]
      rw [this, ih]
    · rw [simLoop_guardFalse _ _ _ _ _ _ _ h]

/-- For a total callback, one simulate call conserves accumulator plus
clock up to the clamped frame-time addition, with no case analysis on the
sign or size of the frame time. -/
lemma simulate_conserves {σ : Type} (u : ℚ → List Body → σ → List Body × σ)
    (s : Sim σ) (f : ℚ) :
    (simulate (someUpd u) s f).1.time_accumulator +
      (simulate (someUpd u) s f).1.t =
      s.time_accumulator + min (s.time_scale * f) (1/10) + s.t := by
  simp only [simulate]
  rw [simLoop_total_no_throw]
  simp only [Bool.false_eq_true, if_false]
  exact simLoop_conserves u s.dt (jsSign (s.time_scale * f)) _ _ _ _ _ _

/-- C7: invoking the stepper without the owning scene overriding
update_state fails at the first sub-step: every simulate call on the base
Simulation that reaches the sub-step loop (the clamped accumulator has
magnitude at least dt) throws, taking no step, advancing no clock and no
body; the only field already mutated is the accumulator, which received
its clamped addition before the loop. -/
theorem base_simulate_throws (s : Sim Unit) (f : ℚ)
    (hreach : s.dt ≤ |s.time_accumulator + min (s.time_scale * f) (1/10)|) :
    simulate baseUpdate s f =
      ({ s with time_accumulator :=
          s.time_accumulator + min (s.time_scale * f) (1/10) }, true) :=
  simulate_throw baseUpdate s f hreach rfl

/-- Witness for C7 on a fresh Simulation with a one-second frame. -/
theorem base_simulate_throws_witness :
    ((freshSim ()).dt ≤
      |(freshSim ()).time_accumulator + min ((freshSim ()).time_scale * 1) (1/10)|) ∧
    (simulate baseUpdate (freshSim ()) 1).2 = true ∧
    (simulate baseUpdate (freshSim ()) 1).1.steps_taken = 0 ∧
    (simulate baseUpdate (freshSim ()) 1).1.t = 0 ∧
    (simulate baseUpdate (freshSim ()) 1).1.bodies = [] ∧
    (simulate baseUpdate (freshSim ()) 1).1.time_accumulator = 1/10 := by
  have hmin1 : min ((freshSim (() : Unit)).time_scale * 1) (1/10) = 1/10 := by
    norm_num [freshSim, min_def]
  have hreach : (freshSim ()).dt ≤
      |(freshSim ()).time_accumulator + min ((freshSim ()).time_scale * 1) (1/10)| := by
    rw [hmin1]
    simp only [freshSim, zero_add]
    rw [abs_of_nonneg (by norm_num : (0:ℚ) ≤ 1/10)]
    norm_num
  have h := base_simulate_throws (freshSim ()) 1 hreach
  refine ⟨hreach, ?_, ?_, ?_, ?_, ?_⟩ <;> rw [h, hmin1] <;> norm_num [freshSim]

/-- C9: the accumulator clamp of simulate is one-sided.  First conjunct:
whenever the scaled frame time is at most 0.1 (including arbitrarily
large negative values), the entire scaled value reaches the accumulator,
none of it is dropped: accumulator plus clock afterwards equal exactly
the frame time, from a fresh Simulation.  Second conjunct: reverse
playback is unbounded: a single call with frame time -(N/20 + 1/40)
executes exactly N reverse sub-steps and drives t to -N/20, for every N. -/
theorem clamp_one_sided_reverse_unbounded :
    (∀ f : ℚ, f ≤ 1/10 →
      (simulate (someUpd idUpd) (freshSim ()) f).1.time_accumulator +
        (simulate (someUpd idUpd) (freshSim ()) f).1.t = f) ∧
    (∀ N : ℕ,
      (simulate (someUpd idUpd) (freshSim ())
        (-(N : ℚ)/20 - 1/40)).1.steps_taken = N ∧
      (simulate (someUpd idUpd) (freshSim ())
        (-(N : ℚ)/20 - 1/40)).1.t = -(N : ℚ)/20) := by
  constructor
  · intro f hf
    have h := simulate_conserves idUpd (freshSim ()) f
    have hmin : min ((freshSim ()).time_scale * f) (1/10) = f := by
      have hts : (freshSim (() : Unit)).time_scale = 1 := rfl
      rw [hts, one_mul]
      exact min_eq_left hf
    rw [h, hmin]
    norm_num [freshSim]
  · intro N
    have hN : (0 : ℚ) ≤ (N : ℚ) := Nat.cast_nonneg N
    have hts : (freshSim (() : Unit)).time_scale = 1 := rfl
    have hdtE : (freshSim (() : Unit)).dt = 1/20 := rfl
    have haccE : (freshSim (() : Unit)).time_accumulator = 0 := rfl
    have hneg : (freshSim ()).time_scale * (-(N : ℚ)/20 - 1/40) < 0 := by
      rw [hts, one_mul]; linarith
    have hsgn : jsSign ((freshSim ()).time_scale * (-(N : ℚ)/20 - 1/40)) = -1 := by
      unfold jsSign
      rw [if_neg (by linarith), if_pos hneg]
    have hmin : min ((freshSim ()).time_scale * (-(N : ℚ)/20 - 1/40)) (1/10) =
        -(N : ℚ)/20 - 1/40 := by
      rw [hts, one_mul]
      exact min_eq_left (by linarith)
    have hlo : ((N : ℕ) : ℚ) * (freshSim (() : Unit)).dt ≤
        jsSign ((freshSim ()).time_scale * (-(N : ℚ)/20 - 1/40)) *
          ((freshSim ()).time_accumulator +
            min ((freshSim ()).time_scale * (-(N : ℚ)/20 - 1/40)) (1/10)) := by
      rw [hsgn, hmin, haccE, hdtE]
      linarith
    have hhi : jsSign ((freshSim ()).time_scale * (-(N : ℚ)/20 - 1/40)) *
        ((freshSim ()).time_accumulator +
          min ((freshSim ()).time_scale * (-(N : ℚ)/20 - 1/40)) (1/10)) <
        (((N : ℕ) : ℚ) + 1) * (freshSim (() : Unit)).dt := by
      rw [hsgn, hmin, haccE, hdtE]
      linarith
    have h := simulate_run idUpd (freshSim ()) (-(N : ℚ)/20 - 1/40) N
      (by rw [hdtE]; norm_num) (Or.inr hsgn) hlo hhi
    rw [h, hsgn]
    constructor
    · show (freshSim (() : Unit)).steps_taken + N = N
      simp [freshSim]
    · show (freshSim (() : Unit)).t + (N : ℚ) * (-1 * (freshSim (() : Unit)).dt)
        = -(N : ℚ)/20
      rw [hdtE]
      simp only [freshSim]
      ring

/-- Witness for C9: a single call with frame time -5 keeps the entire -5
(no clamping from below), and the concrete reverse call at N = 3 runs
exactly 3 reverse sub-steps. -/
theorem clamp_one_sided_reverse_unbounded_witness :
    ((-5 : ℚ) ≤ 1/10 ∧
      (simulate (someUpd idUpd) (freshSim ()) (-5)).1.time_accumulator +
        (simulate (someUpd idUpd) (freshSim ()) (-5)).1.t = -5) ∧
    ((simulate (someUpd idUpd) (freshSim ())
        (-((3 : ℕ) : ℚ)/20 - 1/40)).1.steps_taken = 3 ∧
      (simulate (someUpd idUpd) (freshSim ())
        (-((3 : ℕ) : ℚ)/20 - 1/40)).1.t = -((3 : ℕ) : ℚ)/20) :=
  ⟨⟨by norm_num, clamp_one_sided_reverse_unbounded.1 (-5) (by norm_num)⟩,
   clamp_one_sided_reverse_unbounded.2 3⟩

/-- Random data consumed by one spawn: the three offsets produced by
vec3(0,10,0).randomized(40) (modelled from the spec as a bounded box:
each offset has magnitude at most 20 when the random source is in range)
and the Math.random() phase passed as angular velocity. -/
structure SpawnData where
  dx : ℚ
  dy : ℚ
  dz : ℚ
  phase : ℚ

/-- The TotoroScene fields the effective update_state (lines 750-784)
reads or writes besides the body list: the scene clock and pause
bookkeeping, the rain population targets, and the random stream (a
prescribed sequence of spawn data with a cursor, standing in for the
calls to Math.random()).  The remaining timeline fields of the scene
(camera transform, totoro pose, umbrella angles, light flag) are omitted:
lines 786 onward mutate only those fields and never the body list or the
population counters read by the pipeline above them. -/
structure TotoroMisc where
  time : ℚ
  time_diff : ℚ
  paused : Bool
  rain_count : ℕ
  normal_rain_count : ℕ
  jump_rain_count : ℕ
  rnd : ℕ → SpawnData
  rnd_i : ℕ

/-- One spawned raindrop (lines 760-767): a small sphere placed at
vec3(0,10,0).randomized(40), with velocity vec3(0,-1,0).normalized()
.times(1.3) — exactly (0, -1.3, 0), since normalizing the unit down
vector is the identity — and a random phase as angular velocity; bright
records which material branch was taken. -/
def mkRainBody (sp : SpawnData) (bright : Bool) : Body :=
  { center := ⟨0 + sp.dx, 10 + sp.dy, 0 + sp.dz⟩
    previous := ⟨0 + sp.dx, 10 + sp.dy, 0 + sp.dz⟩
    drawn := ⟨0 + sp.dx, 10 + sp.dy, 0 + sp.dz⟩
    linear_velocity := ⟨0, -(13/10), 0⟩
    angular_velocity := sp.phase
    bright := bright }

/-- The replenish while loop (lines 758-768): while the live count is
below rain_count, push one new raindrop, consuming one entry of the
random stream per spawn.  The fuel argument bounds the loop; it is
called with fuel = rain_count, which suffices because each iteration
grows the list, so the loop body runs at most rain_count times. -/
def replenishBodies (rc : ℕ) (bright : Bool) (rnd : ℕ → SpawnData) :
    ℕ → ℕ → List Body → List Body × ℕ
  | 0, i, bs => (bs, i)
  | fuel+1, i, bs =>
    if bs.length < rc then
      replenishBodies rc bright rnd fuel (i + 1) (bs ++ [mkRainBody (rnd i) bright])
    else (bs, i)

/-- Gravity application (lines 772-775): each fixed step decrements the
vertical velocity by dt * 1 (the scene uses gravity constant 1). -/
def applyGravity (dtv : ℚ) (b : Body) : Body :=
  { b with linear_velocity :=
      ⟨b.linear_velocity.x, b.linear_velocity.y + dtv * (-1),
       b.linear_velocity.z⟩ }

/-- The retirement filter predicate (line 777): keep a body iff its
vertical velocity is non-positive or its speed exceeds 1.2 (squared
norm above 36/25).  The source comment reads "Delete bodies that
bounce". -/
def keepB (b : Body) : Bool :=
  decide (b.linear_velocity.y ≤ 0) || decide ((36/25 : ℚ) < b.linear_velocity.normSq)

/-- The floor response (lines 778-784): a body below height 0.5 that is
still moving downward has its vertical velocity multiplied by -0.2 and
its height clamped to exactly 0.5. -/
def floorBounce (b : Body) : Body :=
  if b.center.y < 1/2 ∧ b.linear_velocity.y < 0 then
    { b with
      linear_velocity :=
        ⟨b.linear_velocity.x, b.linear_velocity.y * (-(1/5)),
         b.linear_velocity.z⟩
      center := ⟨b.center.x, 1/2, b.center.z⟩ }
  else b

/-- The effective TotoroScene.update_state (lines 750-784): advance the
scene clock (and the pause clock when paused), replenish the pool up to
rain_count (with the bright material when rain_count equals
jump_rain_count), reset rain_count to normal after a jump batch, apply
gravity to every body, run the retirement filter, then the floor
response.  Returns the new body list and scene fields. -/
def totoroUpdate (dtv : ℚ) (bs : List Body) (sc : TotoroMisc) :
    List Body × TotoroMisc :=
  let time2 := sc.time + dtv
  let time_diff2 := if sc.paused then sc.time_diff + dtv else sc.time_diff
  let rep := replenishBodies sc.rain_count
    (sc.rain_count == sc.jump_rain_count) sc.rnd sc.rain_count sc.rnd_i bs
  let rc2 := if sc.rain_count == sc.jump_rain_count then sc.normal_rain_count
    else sc.rain_count
  let bs2 := rep.1.map (applyGravity dtv)
  let bs3 := bs2.filter keepB
  let bs4 := bs3.map floorBounce
  (bs4, { sc with time := time2, time_diff := time_diff2, rain_count := rc2,
                  rnd_i := rep.2 })

/-- TotoroScene.update_state as a stepper callback (it never throws). -/
def totoroUpd : ℚ → List Body → TotoroMisc → Option (List Body × TotoroMisc) :=
  someUpd totoroUpdate

/-- The spawn box of the rain pool: center (0,10,0), half-extent 20 on
each axis (vec3(0,10,0).randomized(40)). -/
def inBox (b : Body) : Prop :=
  |b.center.x| ≤ 20 ∧ |b.center.y - 10| ≤ 20 ∧ |b.center.z| ≤ 20

/-- The replenish loop, given enough fuel, tops the list up to the target:
its output length is the maximum of the current count and the target. -/
lemma replenish_length (rc : ℕ) (br : Bool) (rnd : ℕ → SpawnData) :
    ∀ (fuel i : ℕ) (bs : List Body), rc ≤ bs.length + fuel →
      ((replenishBodies rc br rnd fuel i bs).1).length = max bs.length rc := by
  intro fuel
  induction fuel with
  | zero =>
    intro i bs h
    simp only [replenishBodies]
    omega
  | succ m ih =>
    intro i bs h
    by_cases hlt : bs.length < rc
    · rw [replenishBodies, if_pos hlt]
      rw [ih (i + 1) (bs ++ [mkRainBody (rnd i) br])
        (by simp only [List.length_append, List.length_cons, List.length_nil]; omega)]
      simp only [List.length_append, List.length_cons, List.length_nil]
      omega
    · rw [replenishBodies, if_neg hlt]
      simp only []
      omega

/-- Everything in the replenish output is either an original body or one
of the raindrops built from the random stream. -/
lemma replenish_mem (rc : ℕ) (br : Bool) (rnd : ℕ → SpawnData) :
    ∀ (fuel i : ℕ) (bs : List Body) (b : Body),
      b ∈ (replenishBodies rc br rnd fuel i bs).1 →
      b ∈ bs ∨ ∃ k, b = mkRainBody (rnd k) br := by
  intro fuel
  induction fuel with
  | zero =>
    intro i bs b hb
    simp only [replenishBodies] at hb
    exact Or.inl hb
  | succ m ih =>
    intro i bs b hb
    by_cases hlt : bs.length < rc
    · rw [replenishBodies, if_pos hlt] at hb
      rcases ih (i + 1) _ b hb with hin | hsp
      · rcases List.mem_append.1 hin with h1 | h2
        · exact Or.inl h1
        · exact Or.inr ⟨i, (List.mem_singleton.1 h2)⟩
      · exact Or.inr hsp
    · rw [replenishBodies, if_neg hlt] at hb
      exact Or.inl hb

/-- C4: within a TotoroScene fixed step, the floor response on a body
below height 0.5 still moving downward reflects the vertical velocity
scaled by the restitution 0.2 (sign flips, magnitude strictly decreases)
and clamps the height to exactly 0.5. -/
theorem floor_response_reflects_and_clamps (b : Body)
    (hy : b.center.y < 1/2) (hv : b.linear_velocity.y < 0) :
    (floorBounce b).center.y = 1/2 ∧
    (floorBounce b).linear_velocity.y = b.linear_velocity.y * (-(1/5)) ∧
    0 < (floorBounce b).linear_velocity.y ∧
    |(floorBounce b).linear_velocity.y| < |b.linear_velocity.y| := by
  rw [floorBounce, if_pos ⟨hy, hv⟩]
  refine ⟨rfl, rfl, by nlinarith, ?_⟩
  rw [show ({ b with
      linear_velocity := ⟨b.linear_velocity.x, b.linear_velocity.y * (-(1/5)),
        b.linear_velocity.z⟩
      center := ⟨b.center.x, 1/2, b.center.z⟩ } : Body).linear_velocity.y
      = b.linear_velocity.y * (-(1/5)) from rfl]
  rw [abs_of_pos (by nlinarith), abs_of_neg hv]
  nlinarith

/-- The concrete body of the C4 scenario: height 0.4, moving down at 2. -/
def c4Body : Body :=
  { center := ⟨0, 2/5, 0⟩, previous := ⟨0, 2/5, 0⟩, drawn := ⟨0, 2/5, 0⟩,
    linear_velocity := ⟨0, -2, 0⟩, angular_velocity := 0, bright := false }

/-- Witness for C4 at the scenario of the spec: height 0.4, velocity -2,
ends at height 0.5 with velocity +0.4. -/
theorem floor_response_reflects_and_clamps_witness :
    (c4Body.center.y < 1/2 ∧ c4Body.linear_velocity.y < 0) ∧
    ((floorBounce c4Body).center.y = 1/2 ∧
     (floorBounce c4Body).linear_velocity.y = c4Body.linear_velocity.y * (-(1/5)) ∧
     0 < (floorBounce c4Body).linear_velocity.y ∧
     |(floorBounce c4Body).linear_velocity.y| < |c4Body.linear_velocity.y|) ∧
    (floorBounce c4Body).linear_velocity.y = 2/5 :=
  ⟨⟨by norm_num [c4Body], by norm_num [c4Body]⟩,
   floor_response_reflects_and_clamps c4Body (by norm_num [c4Body])
     (by norm_num [c4Body]),
   by norm_num [floorBounce, c4Body]⟩

/-- C8: every body spawned by the replenish loop of the rain pool gets
linear velocity exactly (0, -1.3, 0) — the normalized down vector scaled
by the spawn speed constant 1.3 — so its speed equals 1.3 exactly
(squared norm (13/10)^2) and it points downward (negative vertical
component).  The random stream influences only position and phase. -/
theorem spawn_velocity_exact (rc : ℕ) (br : Bool) (rnd : ℕ → SpawnData)
    (fuel i : ℕ) (bs : List Body) (b : Body)
    (hb : b ∈ (replenishBodies rc br rnd fuel i bs).1) :
    b ∈ bs ∨
      (b.linear_velocity = ⟨0, -(13/10), 0⟩ ∧
       b.linear_velocity.normSq = (13/10) * (13/10) ∧
       b.linear_velocity.y < 0) := by
  rcases replenish_mem rc br rnd fuel i bs b hb with hin | ⟨k, rfl⟩
  · exact Or.inl hin
  · refine Or.inr ⟨rfl, ?_, by norm_num [mkRainBody]⟩
    norm_num [mkRainBody, Vec3.normSq]

/-- Witness for C8: a single spawn into an empty pool. -/
theorem spawn_velocity_exact_witness :
    (mkRainBody ((fun _ => (⟨0, 0, 0, 0⟩ : SpawnData)) 0) false ∈
      (replenishBodies 1 false (fun _ => ⟨0, 0, 0, 0⟩) 1 0 []).1) ∧
    (mkRainBody ((fun _ => (⟨0, 0, 0, 0⟩ : SpawnData)) 0) false ∈ ([] : List Body) ∨
      ((mkRainBody ((fun _ => (⟨0, 0, 0, 0⟩ : SpawnData)) 0) false).linear_velocity
          = ⟨0, -(13/10), 0⟩ ∧
       (mkRainBody ((fun _ => (⟨0, 0, 0, 0⟩ : SpawnData)) 0) false).linear_velocity.normSq
          = (13/10) * (13/10) ∧
       (mkRainBody ((fun _ => (⟨0, 0, 0, 0⟩ : SpawnData)) 0) false).linear_velocity.y < 0)) := by
  have hmem : mkRainBody ((fun _ => (⟨0, 0, 0, 0⟩ : SpawnData)) 0) false ∈
      (replenishBodies 1 false (fun _ => ⟨0, 0, 0, 0⟩) 1 0 []).1 := by
    norm_num [replenishBodies]
  exact ⟨hmem, spawn_velocity_exact 1 false _ 1 0 [] _ hmem⟩

/-- C5 amended: after one fixed step that starts with the live count at
most the target rain_count (so at least one replenish pass can make up
the deficit) and in which the retirement filter removes no pre-existing
body, the live count equals the entry rain_count exactly: the replenish
loop spawns exactly the deficit, and spawned bodies always survive the
filter of their own step (their post-gravity vertical velocity is
negative).  Moreover, when starting from an empty pool with an in-range
random stream, every body after the step lies within the configured
spawn box. -/
theorem population_refilled_to_target (dtv : ℚ) (bs : List Body)
    (sc : TotoroMisc) (hdtv : 0 ≤ dtv)
    (hlen : bs.length ≤ sc.rain_count)
    (hkeep : ∀ b ∈ bs, keepB (applyGravity dtv b) = true) :
    ((totoroUpdate dtv bs sc).1).length = sc.rain_count ∧
    (bs = [] →
      (∀ n, |(sc.rnd n).dx| ≤ 20 ∧ |(sc.rnd n).dy| ≤ 20 ∧ |(sc.rnd n).dz| ≤ 20) →
      ∀ b ∈ (totoroUpdate dtv bs sc).1, inBox b) := by
  have hspawnkeep : ∀ (k : ℕ) (br : Bool),
      keepB (applyGravity dtv (mkRainBody (sc.rnd k) br)) = true := by
    intro k br
    simp only [keepB, applyGravity, mkRainBody, Bool.or_eq_true, decide_eq_true_eq]
    left
    linarith
  have hall : ∀ b ∈ (replenishBodies sc.rain_count
      (sc.rain_count == sc.jump_rain_count) sc.rnd sc.rain_count sc.rnd_i
      bs).1.map (applyGravity dtv), keepB b = true := by
    intro b hb
    obtain ⟨a, ha, rfl⟩ := List.mem_map.1 hb
    rcases replenish_mem _ _ _ _ _ _ _ ha with hin | ⟨k, rfl⟩
    · exact hkeep a hin
    · exact hspawnkeep k _
  have hfilter : ((replenishBodies sc.rain_count
      (sc.rain_count == sc.jump_rain_count) sc.rnd sc.rain_count sc.rnd_i
      bs).1.map (applyGravity dtv)).filter keepB =
      (replenishBodies sc.rain_count (sc.rain_count == sc.jump_rain_count)
        sc.rnd sc.rain_count sc.rnd_i bs).1.map (applyGravity dtv) :=
    List.filter_eq_self.2 (fun a ha => hall a ha)
  have hreplen : ((replenishBodies sc.rain_count
      (sc.rain_count == sc.jump_rain_count) sc.rnd sc.rain_count sc.rnd_i
      bs).1).length = sc.rain_count := by
    rw [replenish_length _ _ _ _ _ _ (by omega)]
    omega
  constructor
  · simp only [totoroUpdate, List.length_map, hfilter, hreplen]
  · intro hbs hbox b hb
    simp only [totoroUpdate, hfilter] at hb
    obtain ⟨a, ha, rfl⟩ := List.mem_map.1 hb
    obtain ⟨a0, ha0, rfl⟩ := List.mem_map.1 ha
    rcases replenish_mem _ _ _ _ _ _ _ ha0 with hin | ⟨k, rfl⟩
    · rw [hbs] at hin; cases hin
    · obtain ⟨hbx, hby, hbz⟩ := hbox k
      by_cases hc : (applyGravity dtv (mkRainBody (sc.rnd k)
          (sc.rain_count == sc.jump_rain_count))).center.y < 1/2 ∧
          (applyGravity dtv (mkRainBody (sc.rnd k)
            (sc.rain_count == sc.jump_rain_count))).linear_velocity.y < 0
      · rw [floorBounce, if_pos hc]
        refine ⟨?_, ?_, ?_⟩
        · show |(0 : ℚ) + (sc.rnd k).dx| ≤ 20
          rw [zero_add]; exact hbx
        · show |(1 : ℚ)/2 - 10| ≤ 20
          rw [show ((1 : ℚ)/2 - 10) = -(19/2) by norm_num, abs_neg,
            abs_of_nonneg (by norm_num : (0:ℚ) ≤ 19/2)]
          norm_num
        · show |(0 : ℚ) + (sc.rnd k).dz| ≤ 20
          rw [zero_add]; exact hbz
      · rw [floorBounce, if_neg hc]
        refine ⟨?_, ?_, ?_⟩
        · show |(0 : ℚ) + (sc.rnd k).dx| ≤ 20
          rw [zero_add]; exact hbx
        · show |(10 : ℚ) + (sc.rnd k).dy - 10| ≤ 20
          rw [show ((10 : ℚ) + (sc.rnd k).dy - 10) = (sc.rnd k).dy by ring]
          exact hby
        · show |(0 : ℚ) + (sc.rnd k).dz| ≤ 20
          rw [zero_add]; exact hbz

/-- A slow falling body high above the floor. -/
def slowBody : Body :=
  { center := ⟨0, 5, 0⟩, previous := ⟨0, 5, 0⟩, drawn := ⟨0, 5, 0⟩,
    linear_velocity := ⟨0, -(1/10), 0⟩, angular_velocity := 0, bright := false }

/-- A scene with target population 1 (jump target different, so the
material branch and the post-jump reset are inert). -/
def overfullScene : TotoroMisc :=
  { time := 0, time_diff := 0, paused := false, rain_count := 1,
    normal_rain_count := 1, jump_rain_count := 7,
    rnd := fun _ => ⟨0, 0, 0, 0⟩, rnd_i := 0 }

/-- C5 counterexample: a fixed step of a pool holding 2 bodies with
target rain_count = 1 in which no body is retired (both keep falling)
and none is spawned still ends with 2 live bodies, not rain_count:
when the live count exceeds the target, the "equals the target" claim
fails even with no retirement. -/
theorem population_cex :
    ((totoroUpdate (1/20) [slowBody, slowBody] overfullScene).1).length = 2 ∧
    overfullScene.rain_count = 1 ∧
    ((totoroUpdate (1/20) [slowBody, slowBody] overfullScene).1).length ≠
      overfullScene.rain_count := by
  have hrun : (totoroUpdate (1/20) [slowBody, slowBody] overfullScene).1 =
      [applyGravity (1/20) slowBody, applyGravity (1/20) slowBody] := by
    simp only [totoroUpdate, overfullScene, replenishBodies]
    norm_num [keepB, applyGravity, slowBody, Vec3.normSq, floorBounce,
      List.filter, mkRainBody]
  rw [hrun]
  norm_num [overfullScene]

/-- The concrete scene of the C5 witness: target 10 from an empty pool. -/
def spawnScene : TotoroMisc :=
  { time := 0, time_diff := 0, paused := false, rain_count := 10,
    normal_rain_count := 10, jump_rain_count := 17,
    rnd := fun _ => ⟨0, 0, 0, 0⟩, rnd_i := 0 }

/-- Witness for the amended C5: one step from an empty pool with target
10 spawns exactly 10 bodies, all inside the spawn box. -/
theorem population_refilled_to_target_witness :
    ((0 : ℚ) ≤ 1/20) ∧ (([] : List Body).length ≤ spawnScene.rain_count) ∧
    ((totoroUpdate (1/20) [] spawnScene).1).length = 10 ∧
    (∀ b ∈ (totoroUpdate (1/20) [] spawnScene).1, inBox b) := by
  have h := population_refilled_to_target (1/20) [] spawnScene
    (by norm_num) (by norm_num [spawnScene]) (by intro b hb; cases hb)
  refine ⟨by norm_num, by norm_num [spawnScene], h.1, ?_⟩
  exact h.2 rfl (by intro n; norm_num [spawnScene])

/-- A body far beyond any plausible maximum radius, falling slowly. -/
def farBody : Body :=
  { center := ⟨0, 100, 0⟩, previous := ⟨0, 100, 0⟩, drawn := ⟨0, 100, 0⟩,
    linear_velocity := ⟨0, -(1/10), 0⟩, angular_velocity := 0, bright := false }

/-- A scene with target population 0, so a step only runs the
gravity/filter/floor pipeline on the given bodies. -/
def cullScene : TotoroMisc :=
  { time := 0, time_diff := 0, paused := false, rain_count := 0,
    normal_rain_count := 0, jump_rain_count := 7,
    rnd := fun _ => ⟨0, 0, 0, 0⟩, rnd_i := 0 }

/-- C6 counterexample: after a fixed step, a body whose speed (3/20) is
below the minimum threshold under either reading (1.2 of the effective
filter, 3 of the shadowed one) while its distance (about 5) is far below
the maximum radius 50 is still live, and so is a body at distance about
100, beyond the maximum radius: the effective retirement predicate of
line 777 keeps any body with non-positive vertical velocity and never
consults the distance from the origin. -/
theorem retirement_cex :
    (totoroUpdate (1/20) [slowBody, farBody] cullScene).1 =
      [applyGravity (1/20) slowBody, applyGravity (1/20) farBody] ∧
    (applyGravity (1/20) slowBody).linear_velocity.normSq < 36/25 ∧
    (applyGravity (1/20) slowBody).linear_velocity.normSq < 9 ∧
    (applyGravity (1/20) slowBody).center.normSq < 2500 ∧
    2500 < (applyGravity (1/20) farBody).center.normSq := by
  refine ⟨?_, ?_, ?_, ?_, ?_⟩
  · simp only [totoroUpdate, cullScene, replenishBodies]
    norm_num [keepB, applyGravity, slowBody, farBody, Vec3.normSq, floorBounce,
      List.filter]
  · norm_num [applyGravity, slowBody, Vec3.normSq]
  · norm_num [applyGravity, slowBody, Vec3.normSq]
  · norm_num [applyGravity, slowBody, Vec3.normSq]
  · norm_num [applyGravity, farBody, Vec3.normSq]

/-- C6 amended: the effective retirement has nothing to do with distance
from the origin or a speed floor; after every fixed step every live body
satisfies the effective keep predicate as of filter time: non-positive
vertical velocity, or speed above 1.2, or it was floor-bounced after the
filter this step (height clamped to 0.5, now moving upward). -/
theorem retirement_effective_invariant (dtv : ℚ) (bs : List Body)
    (sc : TotoroMisc) (b : Body) (hb : b ∈ (totoroUpdate dtv bs sc).1) :
    b.linear_velocity.y ≤ 0 ∨ (36/25 : ℚ) < b.linear_velocity.normSq ∨
      (b.center.y = 1/2 ∧ 0 < b.linear_velocity.y) := by
  simp only [totoroUpdate] at hb
  obtain ⟨a, ha, rfl⟩ := List.mem_map.1 hb
  have hkeep : keepB a = true := (List.mem_filter.1 ha).2
  simp only [keepB, Bool.or_eq_true, decide_eq_true_eq] at hkeep
  by_cases hc : a.center.y < 1/2 ∧ a.linear_velocity.y < 0
  · rw [floorBounce, if_pos hc]
    refine Or.inr (Or.inr ⟨rfl, ?_⟩)
    show 0 < a.linear_velocity.y * (-(1/5))
    nlinarith [hc.2]
  · rw [floorBounce, if_neg hc]
    rcases hkeep with h | h
    · exact Or.inl h
    · exact Or.inr (Or.inl h)

/-- Witness for the amended C6 at a concrete surviving body. -/
theorem retirement_effective_invariant_witness :
    (applyGravity (1/20) slowBody ∈
      (totoroUpdate (1/20) [slowBody] cullScene).1) ∧
    ((applyGravity (1/20) slowBody).linear_velocity.y ≤ 0 ∨
      (36/25 : ℚ) < (applyGravity (1/20) slowBody).linear_velocity.normSq ∨
      ((applyGravity (1/20) slowBody).center.y = 1/2 ∧
        0 < (applyGravity (1/20) slowBody).linear_velocity.y)) := by
  have hmem : applyGravity (1/20) slowBody ∈
      (totoroUpdate (1/20) [slowBody] cullScene).1 := by
    simp only [totoroUpdate, cullScene, replenishBodies]
    norm_num [keepB, applyGravity, slowBody, Vec3.normSq, floorBounce,
      List.filter]
  exact ⟨hmem, retirement_effective_invariant (1/20) [slowBody] cullScene _ hmem⟩

/-- C10 amended: in the fixed step, the retirement filter sits between
gravity and the floor response (conjunct 3), and keeps a body iff its
vertical velocity is non-positive or its speed exceeds 1.2 (conjunct 1);
hence any post-gravity body moving upward with speed at most 1.2 is
dropped by the filter (conjunct 2).  However, because the floor response
runs after the filter, a body that bounces leaves its step alive with
upward velocity, rises during the following advance, and survives the
next step whenever one gravity increment flips its vertical velocity
back to non-positive — a bounced raindrop can survive to rise (see the
counterexample). -/
theorem retire_filter_between_gravity_and_floor :
    (∀ b : Body, keepB b = true ↔
      (b.linear_velocity.y ≤ 0 ∨ (36/25 : ℚ) < b.linear_velocity.normSq)) ∧
    (∀ (l : List Body) (b : Body), b ∈ l → 0 < b.linear_velocity.y →
      b.linear_velocity.normSq ≤ 36/25 → b ∉ l.filter keepB) ∧
    (∀ (dtv : ℚ) (bs : List Body) (sc : TotoroMisc),
      (totoroUpdate dtv bs sc).1 =
        ((((replenishBodies sc.rain_count (sc.rain_count == sc.jump_rain_count)
            sc.rnd sc.rain_count sc.rnd_i bs).1).map
          (applyGravity dtv)).filter keepB).map floorBounce) := by
  refine ⟨?_, ?_, fun dtv bs sc => rfl⟩
  · intro b
    simp [keepB]
  · intro l b _ hup hslow hmem
    have hkeep : keepB b = true := (List.mem_filter.1 hmem).2
    simp only [keepB, Bool.or_eq_true, decide_eq_true_eq] at hkeep
    rcases hkeep with h | h
    · linarith
    · linarith

/-- A raindrop about to make a gentle bounce: height 0.45, vertical
velocity -0.2 (so -0.25 after one gravity increment, +0.05 after the
restitution). -/
def bounceBody : Body :=
  { center := ⟨0, 9/20, 0⟩, previous := ⟨0, 9/20, 0⟩, drawn := ⟨0, 9/20, 0⟩,
    linear_velocity := ⟨0, -(1/5), 0⟩, angular_velocity := 0, bright := false }

/-- The bounced raindrop as it leaves its bounce step: clamped to the
floor, moving upward at 0.05, slow. -/
def bouncedOnce : Body :=
  { center := ⟨0, 1/2, 0⟩, previous := ⟨0, 9/20, 0⟩, drawn := ⟨0, 9/20, 0⟩,
    linear_velocity := ⟨0, 1/20, 0⟩, angular_velocity := 0, bright := false }

/-- Scene for the bounce run: population target 1, one live body. -/
def bounceScene : TotoroMisc :=
  { time := 0, time_diff := 0, paused := false, rain_count := 1,
    normal_rain_count := 1, jump_rain_count := 9,
    rnd := fun _ => ⟨0, 0, 0, 0⟩, rnd_i := 0 }

/-- A TotoroScene stepper state owning the bounce body. -/
def bounceSim : Sim TotoroMisc :=
  { time_accumulator := 0, time_scale := 1, t := 0, dt := 1/20,
    steps_taken := 0, bodies := [bounceBody], scene := bounceScene }

/-- The bounced raindrop two sub-steps later: it rose to 201/400 during
the advance after its bounce and is still live. -/
def c10Final : Body :=
  { center := ⟨0, 201/400, 0⟩, previous := ⟨0, 201/400, 0⟩,
    drawn := ⟨0, 201/400, 0⟩, linear_velocity := ⟨0, 0, 0⟩,
    angular_velocity := 0, bright := false }

/-- C10 counterexample: (a) the fixed step that bounces the raindrop
leaves it in that same step's output moving upward with speed 0.05, far
below 1.2 — an upward-moving slow body that is NOT removed in the step
that made it move upward; (b) two sub-steps of the full stepper keep it
alive and risen to height 201/400 > 1/2: a bounced raindrop survives to
rise, because the filter precedes the bounce and gravity flips the small
upward velocity back before the next filter. -/
theorem bounced_raindrop_survives_cex :
    ((totoroUpdate (1/20) [bounceBody] bounceScene).1 = [bouncedOnce] ∧
      0 < bouncedOnce.linear_velocity.y ∧
      bouncedOnce.linear_velocity.normSq ≤ 36/25) ∧
    ((simulate totoroUpd bounceSim (1/10)).1.bodies = [c10Final] ∧
      1/2 < c10Final.center.y) := by
  constructor
  · refine ⟨?_, by norm_num [bouncedOnce], by norm_num [bouncedOnce, Vec3.normSq]⟩
    simp only [totoroUpdate, bounceScene, replenishBodies]
    norm_num [keepB, applyGravity, bounceBody, Vec3.normSq, floorBounce,
      List.filter, bouncedOnce]
  · constructor
    · have hsgn : jsSign (bounceSim.time_scale * (1/10)) = 1 := by
        norm_num [jsSign, bounceSim]
      have hmin : min (bounceSim.time_scale * (1/10)) (1/10) = 1/10 := by
        norm_num [bounceSim, min_def]
      have hlo : ((2 : ℕ) : ℚ) * bounceSim.dt ≤
          jsSign (bounceSim.time_scale * (1/10)) *
            (bounceSim.time_accumulator +
              min (bounceSim.time_scale * (1/10)) (1/10)) := by
        rw [hsgn, hmin]; norm_num [bounceSim]
      have hhi : jsSign (bounceSim.time_scale * (1/10)) *
          (bounceSim.time_accumulator +
            min (bounceSim.time_scale * (1/10)) (1/10)) <
          (((2 : ℕ) : ℚ) + 1) * bounceSim.dt := by
        rw [hsgn, hmin]; norm_num [bounceSim]
      have h := simulate_run totoroUpdate bounceSim (1/10) 2
        (by norm_num [bounceSim]) (Or.inl hsgn) hlo hhi
      show (simulate (someUpd totoroUpdate) bounceSim (1/10)).1.bodies = [c10Final]
      rw [h, hsgn, hmin]
      show ((stepIter totoroUpdate bounceSim.dt 2 bounceSim.bodies
          bounceSim.scene).1.map (Body.blend_state
            ((bounceSim.time_accumulator + 1/10 - (2 : ℚ) * (1 * bounceSim.dt)) /
              bounceSim.dt))) = [c10Final]
      simp only [stepIter, bounceSim, bounceScene, bounceBody]
      norm_num [totoroUpdate, replenishBodies, applyGravity, keepB, floorBounce,
        Body.advance, Vec3.normSq, List.filter, Body.blend_state, Vec3.mix,
        c10Final, bounceScene]
    · norm_num [c10Final]

/-- Witness for the amended C10 at the concrete bounced raindrop: the
filter characterization evaluated at it, and its removal by the filter
stage when it is presented upward-moving and slow. -/
theorem retire_filter_between_gravity_and_floor_witness :
    (keepB bouncedOnce = true ↔
      (bouncedOnce.linear_velocity.y ≤ 0 ∨
        (36/25 : ℚ) < bouncedOnce.linear_velocity.normSq)) ∧
    (bouncedOnce ∈ [bouncedOnce] ∧ 0 < bouncedOnce.linear_velocity.y ∧
      bouncedOnce.linear_velocity.normSq ≤ 36/25 ∧
      bouncedOnce ∉ [bouncedOnce].filter keepB) :=
  ⟨retire_filter_between_gravity_and_floor.1 bouncedOnce,
   by simp, by norm_num [bouncedOnce], by norm_num [bouncedOnce, Vec3.normSq],
   retire_filter_between_gravity_and_floor.2.1 [bouncedOnce] bouncedOnce
     (by simp) (by norm_num [bouncedOnce])
     (by norm_num [bouncedOnce, Vec3.normSq])⟩
